import Mathlib

/-!
Verification of the text-splicing and tag-collection core of the `dash_dev`/`calcipy`
repository (`calcipy/doit_tasks/doc.py` and `calcipy/doit_tasks/tag_collector.py`).

The embedding is shallow: Python strings are Lean `String`s (or `List Char` where
character-level manipulation matters), Python functions become Lean functions, and a
Python function that can raise (``KeyError`` from ``new_text[key]``, ``MachineError``
from an invalid ``transitions`` trigger) returns an `Option`, with `none` for the
raised exception.
-/

namespace Calcipy

/-- The whitespace characters removed by Python's `str.strip()`. -/
def pyIsSpace (c : Char) : Bool :=
  c = ' ' || c = '\t' || c = '\n' || c = '\r' || c = '\x0b' || c = '\x0c'

/-- Python `str.strip()` on a character list: drop leading and trailing whitespace. -/
def pyStripList (l : List Char) : List Char :=
  ((l.dropWhile pyIsSpace).reverse.dropWhile pyIsSpace).reverse

/-- Python `'abc'.split('\n')`: split into lines at every newline character.
`splitNl [] = [[]]` just as `''.split('\n') == ['']`. -/
def splitNl : List Char → List (List Char)
  | [] => [[]]
  | c :: rest =>
    match splitNl rest with
    | [] => [[]]
    | s :: ss => if c = '\n' then [] :: s :: ss else (c :: s) :: ss

/-- Python `'\n'.join(...)` on character lists. -/
def joinNl (ls : List (List Char)) : List Char :=
  List.intercalate ['\n'] ls

/-- The closing-marker test `line.strip().startswith('<!-- /')` used by
`_ReadMeMachine.parse` (doc.py line 159). -/
def isCloser (line : String) : Bool :=
  List.isPrefixOf "<!-- /".data (pyStripList line.data)

/-- The two states of `_ReadMeMachine` (doc.py line 128): `readme` is the passthrough
state, `new` is the inside-a-marked-region state. -/
inductive MachineState
  | readme
  | new
deriving DecidableEq, Repr

/-- Model of `_ReadMeMachine.parse` (doc.py lines 155-173), started in machine state `s`.

`pat line` models `comment_pattern.match(line)`: `none` for no match, `some k` for a
match whose first capture group is `k`.  `repl` models the `new_text` dictionary.

Per input line the source does: if the pattern matches, append the line; if it
strip-starts with `<!-- /`, trigger `end` (raises `MachineError` unless in state
`new`); otherwise look up `new_text[key]` (raises `KeyError` when absent), append
`['', *new_text[key], '']`, and trigger `start_new` (raises `MachineError` unless in
state `readme`).  A non-matching line is appended only in state `readme`.  A raised
exception makes the whole call fail, modelled as `none`; appends to the accumulator
`self.readme_lines` are modelled as prepends to the recursive result, which yields the
same returned list. -/
def parseFrom (pat : String → Option String) (repl : String → Option (List String)) :
    MachineState → List String → Option (List String)
  | _, [] => some []
  | s, line :: rest =>
    match pat line with
    | some k =>
      if isCloser line then
        match s with
        | MachineState.new =>
          (parseFrom pat repl MachineState.readme rest).map (fun out => line :: out)
        | MachineState.readme => none
      else
        match repl k with
        | none => none
        | some r =>
          match s with
          | MachineState.readme =>
            (parseFrom pat repl MachineState.new rest).map
              (fun out => line :: "" :: (r ++ "" :: out))
          | MachineState.new => none
    | none =>
      match s with
      | MachineState.readme =>
        (parseFrom pat repl MachineState.readme rest).map (fun out => line :: out)
      | MachineState.new => parseFrom pat repl MachineState.new rest

/-- Model of `_ReadMeMachine().parse(lines, comment_pattern, new_text)`: the machine is created
in state `readme` (doc.py line 139). -/
def parse (pat : String → Option String) (repl : String → Option (List String))
    (lines : List String) : Option (List String) :=
  parseFrom pat repl MachineState.readme lines

/-- The input lines that `parseFrom` consumes in the passthrough (`readme`) state
without matching the comment pattern, following the same state evolution. -/
def passthroughFrom (pat : String → Option String) :
    MachineState → List String → List String
  | _, [] => []
  | s, line :: rest =>
    match pat line with
    | some _ =>
      if isCloser line then passthroughFrom pat MachineState.readme rest
      else passthroughFrom pat MachineState.new rest
    | none =>
      match s with
      | MachineState.readme => line :: passthroughFrom pat MachineState.readme rest
      | MachineState.new => passthroughFrom pat MachineState.new rest

-- Small-step equations for `parseFrom`.

theorem parseFrom_nil (pat : String → Option String) (repl : String → Option (List String))
    (s : MachineState) : parseFrom pat repl s [] = some [] := rfl

theorem parseFrom_pass_readme (pat : String → Option String)
    (repl : String → Option (List String)) (line : String) (rest : List String)
    (h : pat line = none) :
    parseFrom pat repl MachineState.readme (line :: rest)
      = (parseFrom pat repl MachineState.readme rest).map (fun out => line :: out) := by
  simp [parseFrom, h]

theorem parseFrom_pass_new (pat : String → Option String)
    (repl : String → Option (List String)) (line : String) (rest : List String)
    (h : pat line = none) :
    parseFrom pat repl MachineState.new (line :: rest)
      = parseFrom pat repl MachineState.new rest := by
  simp [parseFrom, h]

theorem parseFrom_open (pat : String → Option String)
    (repl : String → Option (List String)) (line k : String) (r : List String)
    (rest : List String) (hk : pat line = some k) (hc : isCloser line = false)
    (hr : repl k = some r) :
    parseFrom pat repl MachineState.readme (line :: rest)
      = (parseFrom pat repl MachineState.new rest).map
          (fun out => line :: "" :: (r ++ "" :: out)) := by
  simp [parseFrom, hk, hc, hr]

theorem parseFrom_close (pat : String → Option String)
    (repl : String → Option (List String)) (line k : String) (rest : List String)
    (hk : pat line = some k) (hc : isCloser line = true) :
    parseFrom pat repl MachineState.new (line :: rest)
      = (parseFrom pat repl MachineState.readme rest).map (fun out => line :: out) := by
  simp [parseFrom, hk, hc]

theorem parseFrom_open_in_new (pat : String → Option String)
    (repl : String → Option (List String)) (line k : String) (rest : List String)
    (hk : pat line = some k) (hc : isCloser line = false) :
    parseFrom pat repl MachineState.new (line :: rest) = none := by
  cases hrk : repl k <;> simp [parseFrom, hk, hc, hrk]

theorem parseFrom_key_missing (pat : String → Option String)
    (repl : String → Option (List String)) (line k : String) (rest : List String)
    (s : MachineState) (hk : pat line = some k) (hc : isCloser line = false)
    (hr : repl k = none) :
    parseFrom pat repl s (line :: rest) = none := by
  cases s <;> simp [parseFrom, hk, hc, hr]

-- Composite stepping lemmas for the splice machine.

/-- A block of non-matching lines ahead of `rest` passes through verbatim in the
`readme` state. -/
theorem parseFrom_pass_block (pat : String → Option String)
    (repl : String → Option (List String)) (pre : List String)
    (hpre : ∀ x ∈ pre, pat x = none) (rest : List String) :
    parseFrom pat repl MachineState.readme (pre ++ rest)
      = (parseFrom pat repl MachineState.readme rest).map (fun out => pre ++ out) := by
  induction pre with
  | nil =>
    simp [Option.map_id]
  | cons a pre ih =>
    have ha : pat a = none := hpre a (List.mem_cons_self a pre)
    have ih' := ih (fun x hx => hpre x (List.mem_cons_of_mem a hx))
    rw [List.cons_append, parseFrom_pass_readme pat repl a (pre ++ rest) ha, ih',
      Option.map_map]
    rfl

/-- A block of non-matching lines is discarded in the `new` (inside-region) state. -/
theorem parseFrom_new_drop (pat : String → Option String)
    (repl : String → Option (List String)) (mid : List String)
    (hmid : ∀ x ∈ mid, pat x = none) (rest : List String) :
    parseFrom pat repl MachineState.new (mid ++ rest)
      = parseFrom pat repl MachineState.new rest := by
  induction mid with
  | nil => rfl
  | cons a mid ih =>
    have ha : pat a = none := hmid a (List.mem_cons_self a mid)
    rw [List.cons_append, parseFrom_pass_new pat repl a (mid ++ rest) ha,
      ih (fun x hx => hmid x (List.mem_cons_of_mem a hx))]

/-- One full marked region processed from the passthrough state: the opener is
emitted, `['', *repl[k], '']` is injected, the original interior is discarded, the
closer is emitted, and the machine continues in the passthrough state. -/
theorem parseFrom_region (pat : String → Option String)
    (repl : String → Option (List String)) (opener k : String) (r : List String)
    (mid : List String) (closer : String) (post : List String)
    (hok : pat opener = some k) (hoc : isCloser opener = false)
    (hr : repl k = some r) (hmid : ∀ x ∈ mid, pat x = none)
    (hck : (pat closer).isSome) (hcc : isCloser closer = true) :
    parseFrom pat repl MachineState.readme (opener :: (mid ++ closer :: post))
      = (parseFrom pat repl MachineState.readme post).map
          (fun out => opener :: "" :: (r ++ "" :: (closer :: out))) := by
  obtain ⟨k', hk'⟩ := Option.isSome_iff_exists.mp hck
  rw [parseFrom_open pat repl opener k r (mid ++ closer :: post) hok hoc hr,
    parseFrom_new_drop pat repl mid hmid (closer :: post),
    parseFrom_close pat repl closer k' post hk' hcc, Option.map_map]
  rfl

/-- Every line of `rest` fails the comment pattern, so in the inside-region state the
machine drops them all and ends with nothing more emitted. -/
theorem parseFrom_new_all_dropped (pat : String → Option String)
    (repl : String → Option (List String)) (rest : List String)
    (hrest : ∀ x ∈ rest, pat x = none) :
    parseFrom pat repl MachineState.new rest = some [] := by
  induction rest with
  | nil => rfl
  | cons a rest ih =>
    rw [parseFrom_pass_new pat repl a rest (hrest a (List.mem_cons_self a rest))]
    exact ih (fun x hx => hrest x (List.mem_cons_of_mem a hx))

/-- The lines consumed in the passthrough state without a pattern match form a
sublist of any successful parse output (they are emitted verbatim, in order). -/
theorem passthroughFrom_sublist (pat : String → Option String)
    (repl : String → Option (List String)) :
    ∀ (lines : List String) (s : MachineState) (out : List String),
      parseFrom pat repl s lines = some out →
      (passthroughFrom pat s lines).Sublist out := by
  intro lines
  induction lines with
  | nil =>
    intro s out h
    simp only [parseFrom] at h
    injection h with h
    subst h
    exact List.Sublist.refl _
  | cons line rest ih =>
    intro s out h
    cases hp : pat line with
    | none =>
      cases s with
      | readme =>
        rw [parseFrom_pass_readme pat repl line rest hp] at h
        cases hrest : parseFrom pat repl MachineState.readme rest with
        | none => rw [hrest] at h; simp at h
        | some out' =>
          rw [hrest] at h
          simp only [Option.map_some', Option.some.injEq] at h
          subst h
          simpa [passthroughFrom, hp] using
            List.Sublist.cons₂ line (ih MachineState.readme out' hrest)
      | new =>
        rw [parseFrom_pass_new pat repl line rest hp] at h
        simpa [passthroughFrom, hp] using ih MachineState.new out h
    | some k =>
      cases hc : isCloser line with
      | true =>
        cases s with
        | readme => simp [parseFrom, hp, hc] at h
        | new =>
          rw [parseFrom_close pat repl line k rest hp hc] at h
          cases hrest : parseFrom pat repl MachineState.readme rest with
          | none => rw [hrest] at h; simp at h
          | some out' =>
            rw [hrest] at h
            simp only [Option.map_some', Option.some.injEq] at h
            subst h
            simpa [passthroughFrom, hp, hc] using
              List.Sublist.cons line (ih MachineState.readme out' hrest)
      | false =>
        cases s with
        | new => rw [parseFrom_open_in_new pat repl line k rest hp hc] at h; exact absurd h (by simp)
        | readme =>
          cases hrk : repl k with
          | none => rw [parseFrom_key_missing pat repl line k rest _ hp hc hrk] at h; exact absurd h (by simp)
          | some r =>
            rw [parseFrom_open pat repl line k r rest hp hc hrk] at h
            cases hrest : parseFrom pat repl MachineState.new rest with
            | none => rw [hrest] at h; simp at h
            | some out' =>
              rw [hrest] at h
              simp only [Option.map_some', Option.some.injEq] at h
              subst h
              have hsub : (passthroughFrom pat MachineState.new rest).Sublist out' :=
                ih MachineState.new out' hrest
              have hout : (line :: "" :: (r ++ "" :: out'))
                  = (line :: "" :: (r ++ [""])) ++ out' := by simp
              rw [hout]
              simpa [passthroughFrom, hp, hc] using
                hsub.trans (List.sublist_append_right (line :: "" :: (r ++ [""])) out')

-- Concrete pattern and replacement map used by the witnesses: the COVERAGE marker of
-- `_write_coverage_to_readme` (doc.py lines 233-234).

/-- Python `str.startswith` via the underlying character lists. -/
def strStarts (p s : String) : Bool := List.isPrefixOf p.data s.data

/-- Model of `re.compile(r'<!-- /?(COVERAGE) -->').match` (doc.py line 233):
`re.match` anchors at the start of the line, so exactly the lines whose prefix is one
of the two literal marker texts match, with capture group 1 equal to `COVERAGE`. -/
def patCov (line : String) : Option String :=
  if strStarts "<!-- COVERAGE -->" line || strStarts "<!-- /COVERAGE -->" line then
    some "COVERAGE"
  else none

/-- A concrete replacement map holding one table line under the key `COVERAGE`. -/
def replCov (k : String) : Option (List String) :=
  if k = "COVERAGE" then some ["| c | d |"] else none

/-- A replacement map with no entries (every lookup raises `KeyError`). -/
def replNone (_ : String) : Option (List String) := none

/-- Claim C1: for every input of the form passthrough-prefix, opener with key `k`,
non-matching interior, closer — with the opener therefore matched in the passthrough
state — the output between the opener line and its closer line is exactly
`['', *repl[k], '']`, injected immediately upon entering the region, and the machine
continues from the passthrough state on the remaining lines. -/
theorem C1_replacement_completeness (pat : String → Option String)
    (repl : String → Option (List String)) (pre : List String) (opener k : String)
    (r : List String) (mid : List String) (closer : String) (post : List String)
    (hpre : ∀ x ∈ pre, pat x = none)
    (hok : pat opener = some k) (hoc : isCloser opener = false)
    (hr : repl k = some r) (hmid : ∀ x ∈ mid, pat x = none)
    (hck : (pat closer).isSome) (hcc : isCloser closer = true) :
    parse pat repl (pre ++ opener :: (mid ++ closer :: post))
      = (parseFrom pat repl MachineState.readme post).map
          (fun out => pre ++ opener :: "" :: (r ++ "" :: (closer :: out))) := by
  unfold parse
  rw [parseFrom_pass_block pat repl pre hpre,
    parseFrom_region pat repl opener k r mid closer post hok hoc hr hmid hck hcc,
    Option.map_map]
  rfl

/-- Witness for C1 at a concrete README: `['Title']`, the COVERAGE region containing
one stale line, then `['tail']`. -/
theorem C1_replacement_completeness_witness :
    parse patCov replCov
        (["Title"] ++ "<!-- COVERAGE -->" :: (["old line"] ++ "<!-- /COVERAGE -->" :: ["tail"]))
      = (parseFrom patCov replCov MachineState.readme ["tail"]).map
          (fun out =>
            ["Title"] ++ "<!-- COVERAGE -->" :: "" :: (["| c | d |"] ++ "" :: ("<!-- /COVERAGE -->" :: out))) :=
  C1_replacement_completeness patCov replCov ["Title"] "<!-- COVERAGE -->" "COVERAGE"
    ["| c | d |"] ["old line"] "<!-- /COVERAGE -->" ["tail"]
    (by decide) (by decide) (by decide) (by decide) (by decide) (by decide) (by decide)

/-- Claim C2: whenever the parse succeeds, the lines consumed in the passthrough state
with no marker match appear in the output unchanged and in their original relative
order (they form a sublist of the output). -/
theorem C2_passthrough_invariance (pat : String → Option String)
    (repl : String → Option (List String)) (lines out : List String)
    (h : parse pat repl lines = some out) :
    (passthroughFrom pat MachineState.readme lines).Sublist out :=
  passthroughFrom_sublist pat repl lines MachineState.readme out h

/-- Witness for C2 on a concrete README with one COVERAGE region. -/
theorem C2_passthrough_invariance_witness :
    (passthroughFrom patCov MachineState.readme
        ["Title", "<!-- COVERAGE -->", "old line", "<!-- /COVERAGE -->", "tail"]).Sublist
      ["Title", "<!-- COVERAGE -->", "", "| c | d |", "", "<!-- /COVERAGE -->", "tail"] :=
  C2_passthrough_invariance patCov replCov
    ["Title", "<!-- COVERAGE -->", "old line", "<!-- /COVERAGE -->", "tail"]
    ["Title", "<!-- COVERAGE -->", "", "| c | d |", "", "<!-- /COVERAGE -->", "tail"]
    (by decide)

/-- An opener whose key is missing from the replacement map poisons the whole parse:
from any machine state, reaching the end of `_ReadMeMachine.parse` is impossible
(`new_text[key]` raises `KeyError` in state `readme`; in state `new` the subsequent
`start_new` trigger raises `MachineError`), so the call returns no output. -/
theorem parseFrom_missing_key (pat : String → Option String)
    (repl : String → Option (List String)) (opener k : String)
    (hok : pat opener = some k) (hoc : isCloser opener = false) (hmiss : repl k = none) :
    ∀ (lines : List String), opener ∈ lines → ∀ s, parseFrom pat repl s lines = none := by
  intro lines
  induction lines with
  | nil => intro h; exact absurd h (List.not_mem_nil opener)
  | cons line rest ih =>
    intro hmem s
    rcases List.mem_cons.mp hmem with heq | hmem'
    · subst heq
      exact parseFrom_key_missing pat repl opener k rest s hok hoc hmiss
    · have ihr := ih hmem'
      cases hp : pat line with
      | none => cases s <;> simp [parseFrom, hp, ihr]
      | some k' =>
        cases hc : isCloser line <;> cases hrk : repl k' <;>
          cases s <;> simp [parseFrom, hp, hc, hrk, ihr]

/-- Claim C4: an input containing an opener marker whose captured key is absent from
the replacement map makes the splice raise (no output is produced), never emitting
blank content for that region. -/
theorem C4_missing_key_raises (pat : String → Option String)
    (repl : String → Option (List String)) (lines : List String) (opener k : String)
    (hmem : opener ∈ lines) (hok : pat opener = some k) (hoc : isCloser opener = false)
    (hmiss : repl k = none) : parse pat repl lines = none :=
  parseFrom_missing_key pat repl opener k hok hoc hmiss lines hmem MachineState.readme

/-- Witness for C4: the COVERAGE opener with an empty replacement map. -/
theorem C4_missing_key_raises_witness :
    parse patCov replNone ["Title", "<!-- COVERAGE -->", "tail"] = none :=
  C4_missing_key_raises patCov replNone ["Title", "<!-- COVERAGE -->", "tail"]
    "<!-- COVERAGE -->" "COVERAGE" (by decide) (by decide) (by decide) (by decide)

/-- Claim C9: when an opener is never followed by its closer, every original line after
the opener is silently discarded: the output stops after the injected replacement
block, whatever `rest` contained. -/
theorem C9_unterminated_region_drops (pat : String → Option String)
    (repl : String → Option (List String)) (pre : List String) (opener k : String)
    (r : List String) (rest : List String)
    (hpre : ∀ x ∈ pre, pat x = none) (hok : pat opener = some k)
    (hoc : isCloser opener = false) (hr : repl k = some r)
    (hrest : ∀ x ∈ rest, pat x = none) :
    parse pat repl (pre ++ opener :: rest)
      = some (pre ++ opener :: "" :: (r ++ [""])) := by
  unfold parse
  rw [parseFrom_pass_block pat repl pre hpre,
    parseFrom_open pat repl opener k r rest hok hoc hr,
    parseFrom_new_all_dropped pat repl rest hrest]
  rfl

/-- Witness for C9: an unterminated COVERAGE region swallows the two trailing lines. -/
theorem C9_unterminated_region_drops_witness :
    parse patCov replCov (["Title"] ++ "<!-- COVERAGE -->" :: ["lost one", "lost two"])
      = some (["Title"] ++ "<!-- COVERAGE -->" :: "" :: (["| c | d |"] ++ [""])) :=
  C9_unterminated_region_drops patCov replCov ["Title"] "<!-- COVERAGE -->" "COVERAGE"
    ["| c | d |"] ["lost one", "lost two"]
    (by decide) (by decide) (by decide) (by decide) (by decide)

/-- Well-formed marker structure: the document is a sequence of passthrough lines and
complete marked regions — every opener is eventually followed by its closer, the
region interiors contain no marker lines, and every opener key is present in the
replacement map. -/
inductive WellFormed (pat : String → Option String)
    (repl : String → Option (List String)) : List String → Prop
  | nil : WellFormed pat repl []
  | pass (line : String) (rest : List String) :
      pat line = none → WellFormed pat repl rest → WellFormed pat repl (line :: rest)
  | region (opener k : String) (r : List String) (mid : List String) (closer : String)
      (post : List String) :
      pat opener = some k → isCloser opener = false → repl k = some r →
      (∀ x ∈ mid, pat x = none) → (pat closer).isSome → isCloser closer = true →
      WellFormed pat repl post →
      WellFormed pat repl (opener :: (mid ++ closer :: post))

/-- Claim C3: the splice is idempotent on well-formed inputs.  When every opener is
followed by its closer, no replacement line matches the marker pattern (and the blank
line the machine injects does not either), one application succeeds, and a second
application of `_ReadMeMachine.parse` returns its input unchanged. -/
theorem C3_splice_idempotent (pat : String → Option String)
    (repl : String → Option (List String)) (hblank : pat "" = none)
    (hrepl : ∀ k r, repl k = some r → ∀ x ∈ r, pat x = none)
    (lines : List String) (hwf : WellFormed pat repl lines) :
    ∃ out, parse pat repl lines = some out ∧ parse pat repl out = some out := by
  induction hwf with
  | nil => exact ⟨[], rfl, rfl⟩
  | pass line rest hnone _ ih =>
    obtain ⟨out, h1, h2⟩ := ih
    refine ⟨line :: out, ?_, ?_⟩
    · unfold parse at h1 ⊢
      rw [parseFrom_pass_readme pat repl line rest hnone, h1]
      rfl
    · unfold parse at h2 ⊢
      rw [parseFrom_pass_readme pat repl line out hnone, h2]
      rfl
  | region opener k r mid closer post hok hoc hr hmid hck hcc _ ih =>
    obtain ⟨out, h1, h2⟩ := ih
    refine ⟨opener :: "" :: (r ++ "" :: (closer :: out)), ?_, ?_⟩
    · unfold parse at h1 ⊢
      rw [parseFrom_region pat repl opener k r mid closer post hok hoc hr hmid hck hcc,
        h1]
      rfl
    · unfold parse at h2 ⊢
      have hmid' : ∀ x ∈ ("" :: (r ++ [""])), pat x = none := by
        intro x hx
        rcases List.mem_cons.mp hx with rfl | hx'
        · exact hblank
        · rcases List.mem_append.mp hx' with hxr | hx1
          · exact hrepl k r hr x hxr
          · rcases List.mem_singleton.mp hx1 with rfl
            exact hblank
      have hshape : opener :: "" :: (r ++ "" :: (closer :: out))
          = opener :: (("" :: (r ++ [""])) ++ closer :: out) := by simp
      rw [hshape, parseFrom_region pat repl opener k r ("" :: (r ++ [""])) closer out
        hok hoc hr hmid' hck hcc, h2]
      simp

/-- Witness for C3: a README with one well-formed COVERAGE region stabilizes after
one splice. -/
theorem C3_splice_idempotent_witness :
    ∃ out,
      parse patCov replCov
          ["Title", "<!-- COVERAGE -->", "old line", "<!-- /COVERAGE -->", "tail"]
        = some out ∧ parse patCov replCov out = some out :=
  C3_splice_idempotent patCov replCov (by decide)
    (by
      intro k r hk x hx
      by_cases h : k = "COVERAGE"
      · simp only [replCov, h, if_pos] at hk
        injection hk with hk
        subst hk
        simp only [List.mem_singleton] at hx
        subst hx
        decide
      · simp [replCov, h] at hk)
    ["Title", "<!-- COVERAGE -->", "old line", "<!-- /COVERAGE -->", "tail"]
    (WellFormed.pass "Title" _ (by decide)
      (WellFormed.region "<!-- COVERAGE -->" "COVERAGE" ["| c | d |"] ["old line"]
        "<!-- /COVERAGE -->" ["tail"] (by decide) (by decide) (by decide) (by decide)
        (by decide) (by decide)
        (WellFormed.pass "tail" [] (by decide) WellFormed.nil)))

-- The `__init__.py` merge (`_write_pkg_init`, doc.py lines 69-84).

/-- Python `str.replace('\t', ' ' * 4)` (doc.py line 84). -/
def expandTabs (l : List Char) : List Char :=
  l.flatMap fun c => if c = '\t' then [' ', ' ', ' ', ' '] else [c]

/-- The divider literal `_INIT_DIVIDER` (doc.py line 53): `f'# {"=" * 15} Above is Auto-Generated by
calcipy. User content goes below {"=" * 15}'`. -/
def initDivider : List Char :=
  "# ".data ++ List.replicate 15 '='
    ++ " Above is Auto-Generated by calcipy. User content goes below ".data
    ++ List.replicate 15 '='

/-- Model of `init_lines.index(divider)` plus slicing (doc.py lines 79-80): the lines strictly
after the first line equal to the divider, or `none` when `list.index` raises
`ValueError`. -/
def suffixAfterDivider (divider : List Char) :
    List (List Char) → Option (List (List Char))
  | [] => none
  | l :: rest =>
    if l = divider then some rest else suffixAfterDivider divider rest

/-- The `user_text` of `_write_pkg_init` (doc.py lines 77-83): split the stripped existing
content on newlines, join everything after the divider line, and fall back to the
empty string when the divider is not found. -/
def mergeUserText (content : List Char) : List Char :=
  match suffixAfterDivider initDivider (splitNl (pyStripList content)) with
  | some rest => joinNl rest
  | none => []

/-- The text written by `_write_pkg_init` (doc.py line 84):
`(init_text.replace('\t', ' ' * 4) + user_text).strip() + '\n'` where
`init_text = gen + '\n' + _INIT_DIVIDER` (doc.py lines 71-75) and `gen` is the
formatted `_LOGGER_CONFIG` text. -/
def write_pkg_init (gen content : List Char) : List Char :=
  pyStripList (expandTabs (gen ++ '\n' :: initDivider) ++ mergeUserText content)
    ++ ['\n']

/-- The existing `__init__.py` content `[A, B, DIVIDER, C, D]` of claim C5. -/
def initContentC5 : List Char := "A\nB\n".data ++ initDivider ++ "\nC\nD".data

set_option maxRecDepth 40000 in
/-- Claim C5, code bug: for existing lines `[A, B, DIVIDER, C, D]` and prefix `P` the
code writes `strip(P + '\n' + DIVIDER + 'C\nD') + '\n'` — the divider line and the
first user line are glued together because `init_text` ends with the divider and
`user_text` is concatenated directly (doc.py lines 75, 80, 84) — which differs from
the claimed `strip(P + '\n' + DIVIDER + '\n' + 'C\nD') + '\n'` where the divider
remains its own line. -/
theorem C5_merge_glues_divider :
    write_pkg_init "P".data initContentC5
        = "P\n".data ++ initDivider ++ "C\nD\n".data
      ∧ write_pkg_init "P".data initContentC5
        ≠ pyStripList ("P".data ++ "\n".data ++ initDivider ++ "\n".data ++ "C\nD".data)
            ++ ['\n'] := by
  constructor
  · decide
  · decide

/-- The existing `__init__.py` content `[A, DIVIDER, C]` of claim C6. -/
def initContentC6 : List Char := "A\n".data ++ initDivider ++ "\nC".data

set_option maxRecDepth 40000 in
/-- Claim C6, code bug: the merge is not idempotent.  After one merge the divider line
is glued with the first user line, so the second merge does not find the divider as an
exact line and discards the user suffix, producing a different file. -/
theorem C6_merge_not_idempotent :
    write_pkg_init "P".data (write_pkg_init "P".data initContentC6)
      ≠ write_pkg_init "P".data initContentC6 := by
  decide

-- Trailing-newline shape of the outputs (claim C7).

/-- Predicate stating that `l` ends with exactly one trailing newline: the last character is `'\n'` and the
character before it (when present) is not. -/
def endsWithOneNl (l : List Char) : Prop :=
  l.getLast? = some '\n' ∧ l.dropLast.getLast? ≠ some '\n'

instance (l : List Char) : Decidable (endsWithOneNl l) := by
  unfold endsWithOneNl
  infer_instance

theorem head?_dropWhile_no_space (l : List Char) (c : Char)
    (h : (l.dropWhile pyIsSpace).head? = some c) : pyIsSpace c = false := by
  induction l with
  | nil => simp at h
  | cons a l ih =>
    rw [List.dropWhile_cons] at h
    cases ha : pyIsSpace a
    · simp only [ha, Bool.false_eq_true, if_false, List.head?_cons,
        Option.some.injEq] at h
      subst h
      exact ha
    · simp only [ha, if_true] at h
      exact ih h

theorem pyStripList_getLast?_ne_nl (l : List Char) :
    (pyStripList l).getLast? ≠ some '\n' := by
  intro h
  unfold pyStripList at h
  rw [List.getLast?_reverse] at h
  exact absurd (head?_dropWhile_no_space _ '\n' h) (by decide)

/-- Model of `read_lines` (base.py): `file_path.read_text().split('\n')` for an existing
file. -/
def read_lines (content : String) : List String :=
  (splitNl content.data).map fun l => String.mk l

/-- Model of `'\n'.join(readme_lines)` (doc.py line 187). -/
def joinLines (lines : List String) : String :=
  String.mk (joinNl (lines.map String.data))

/-- Model of `_write_to_readme` (doc.py lines 177-187): the text written back to `README.md`,
`none` when the parse raises. -/
def write_to_readme (pat : String → Option String)
    (repl : String → Option (List String)) (content : String) : Option String :=
  (parse pat repl (read_lines content)).map joinLines

/-- Claim C7, counterexample: the spliced README is written as `'\n'.join(lines)` with
no newline appended, so the README content `"A"` (no markers, no trailing newline) is
rewritten to `"A"`, which does not end with a newline at all. -/
theorem C7_readme_no_trailing_newline :
    write_to_readme patCov replCov "A" = some "A" ∧ ¬ endsWithOneNl "A".data := by
  constructor
  · decide
  · decide

/-- Claim C7, amended: only the merged `__init__.py` is guaranteed to end with exactly
one trailing newline (its text is `(...).strip() + '\n'` and `strip` leaves no
trailing whitespace); the spliced README keeps whatever trailing-newline shape the
joined parsed lines have. -/
theorem C7_init_trailing_newline (gen content : List Char) :
    endsWithOneNl (write_pkg_init gen content) := by
  unfold write_pkg_init endsWithOneNl
  constructor
  · rw [List.getLast?_concat]
  · rw [List.dropLast_concat]
    exact pyStripList_getLast?_ne_nl _

/-- Witness for C7's amended theorem at a concrete generated prefix and file
content. -/
theorem C7_init_trailing_newline_witness :
    endsWithOneNl (write_pkg_init "P".data initContentC5) :=
  C7_init_trailing_newline "P".data initContentC5

-- The tag scanner (`_search_lines`, tag_collector.py lines 59-81).

/-- The structure `_TaggedComment` (tag_collector.py lines 21-27). -/
structure TaggedComment where
  lineno : Nat
  tag : String
  text : String
deriving DecidableEq, Repr

/-- Python's substring test `needle in haystack` on character lists: the needle is a
prefix of some suffix of the haystack. -/
def isInfixOfL (needle : List Char) : List Char → Bool
  | [] => needle.isEmpty
  | c :: rest => List.isPrefixOf needle (c :: rest) || isInfixOfL needle rest

/-- The membership test `':skip_tags:' in line` (tag_collector.py line 76). -/
def containsSkipTags (line : String) : Bool :=
  isInfixOfL ":skip_tags:".data line.data

/-- The loop of `_search_lines` (tag_collector.py lines 73-81) from 0-based line
number `lineno`.  Per line the source computes `regex_compiled.search(line)`
(modelled by `rx`, returning the `tag` and `text` groups on a match), breaks when
`lineno <= 3 and ':skip_tags:' in line`, and otherwise records a match with 1-based
line number `lineno + 1`.  Computing the match before the break test has no
observable effect, so the model tests the break first. -/
def searchLinesFrom (rx : String → Option (String × String)) :
    Nat → List String → List TaggedComment
  | _, [] => []
  | lineno, line :: rest =>
    if lineno ≤ 3 ∧ containsSkipTags line = true then []
    else
      match rx line with
      | some (tag, text) =>
        ⟨lineno + 1, tag, text⟩ :: searchLinesFrom rx (lineno + 1) rest
      | none => searchLinesFrom rx (lineno + 1) rest

/-- Model of `_search_lines(lines, regex_compiled)`: `enumerate` numbers lines from 0. -/
def search_lines (rx : String → Option (String × String)) (lines : List String) :
    List TaggedComment :=
  searchLinesFrom rx 0 lines

/-- Reference scan without the skip-directive break: every matching line is
recorded. -/
def searchLinesAllFrom (rx : String → Option (String × String)) :
    Nat → List String → List TaggedComment
  | _, [] => []
  | lineno, line :: rest =>
    match rx line with
    | some (tag, text) =>
      ⟨lineno + 1, tag, text⟩ :: searchLinesAllFrom rx (lineno + 1) rest
    | none => searchLinesAllFrom rx (lineno + 1) rest

/-- When no line within reach of the skip window (indices keeping `lineno ≤ 3`)
contains the directive, the break never fires and the scan records every match. -/
theorem searchLinesFrom_no_skip (rx : String → Option (String × String)) :
    ∀ (lines : List String) (lineno : Nat),
      (∀ l ∈ lines.take (4 - lineno), containsSkipTags l = false) →
      searchLinesFrom rx lineno lines = searchLinesAllFrom rx lineno lines := by
  intro lines
  induction lines with
  | nil => intro lineno _; rfl
  | cons line rest ih =>
    intro lineno h
    by_cases hl : lineno ≤ 3
    · have h4 : 4 - lineno = (3 - lineno) + 1 := by omega
      have hline : containsSkipTags line = false := by
        apply h line
        rw [h4, List.take_succ_cons]
        exact List.mem_cons_self _ _
      have hrest : ∀ l ∈ rest.take (4 - (lineno + 1)), containsSkipTags l = false := by
        intro l hlmem
        apply h l
        rw [h4, List.take_succ_cons]
        rw [show 4 - (lineno + 1) = 3 - lineno by omega] at hlmem
        exact List.mem_cons_of_mem _ hlmem
      have hcond : ¬(lineno ≤ 3 ∧ containsSkipTags line = true) := by simp [hline]
      rw [searchLinesFrom, if_neg hcond]
      cases hrx : rx line with
      | some p =>
        rw [searchLinesAllFrom]
        cases p with
        | mk tag text => rw [hrx, ih (lineno + 1) hrest]
      | none =>
        rw [searchLinesAllFrom, hrx, ih (lineno + 1) hrest]
    · have hcond : ¬(lineno ≤ 3 ∧ containsSkipTags line = true) := fun hc => hl hc.1
      have hrest : ∀ l ∈ rest.take (4 - (lineno + 1)), containsSkipTags l = false := by
        intro l hlmem
        rw [show 4 - (lineno + 1) = 0 by omega] at hlmem
        simp at hlmem
      rw [searchLinesFrom, if_neg hcond]
      cases hrx : rx line with
      | some p =>
        rw [searchLinesAllFrom]
        cases p with
        | mk tag text => rw [hrx, ih (lineno + 1) hrest]
      | none =>
        rw [searchLinesAllFrom, hrx, ih (lineno + 1) hrest]

/-- Claim C8: a file whose first line contains `:skip_tags:` yields zero tagged
comments regardless of later tag-like lines, and the directive only stops the scan
from within the first 4 lines: when none of the first 4 lines contains it, the scan
records every match in the whole file (a later occurrence does not stop it). -/
theorem C8_skip_directive :
    (∀ (rx : String → Option (String × String)) (line0 : String) (rest : List String),
        containsSkipTags line0 = true → search_lines rx (line0 :: rest) = [])
      ∧ (∀ (rx : String → Option (String × String)) (lines : List String),
          (∀ l ∈ lines.take 4, containsSkipTags l = false) →
          search_lines rx lines = searchLinesAllFrom rx 0 lines) := by
  constructor
  · intro rx line0 rest h
    rw [search_lines, searchLinesFrom, if_pos ⟨by omega, h⟩]
  · intro rx lines h
    exact searchLinesFrom_no_skip rx lines 0 h

/-- Concrete model of `_COMPILED_RE.search` restricted to the witness lines: the line
`'# TODO: fix this'` matches with groups `tag='TODO'`, `text='fix this'`; a line that
carries both a tag and the skip directive also matches; other witness lines do not. -/
def rxTodo (line : String) : Option (String × String) :=
  if line = "# TODO: fix this" then some ("TODO", "fix this")
  else if line = "# TODO: gone :skip_tags:" then some ("TODO", "gone :skip_tags:")
  else none

/-- Witness for C8: a skip directive on the first line silences a later tag, and a
skip directive on line 5 leaves the scan of the whole file intact. -/
theorem C8_skip_directive_witness :
    search_lines rxTodo ["x :skip_tags: y", "# TODO: fix this"] = []
      ∧ search_lines rxTodo ["a", "b", "c", "d", "e :skip_tags: f", "# TODO: fix this"]
        = searchLinesAllFrom rxTodo 0
            ["a", "b", "c", "d", "e :skip_tags: f", "# TODO: fix this"] :=
  ⟨C8_skip_directive.1 rxTodo "x :skip_tags: y" ["# TODO: fix this"] (by decide),
    C8_skip_directive.2 rxTodo ["a", "b", "c", "d", "e :skip_tags: f", "# TODO: fix this"]
      (by decide)⟩

/-- Reaching a skip-directive line while still inside the first four lines stops the
scan with exactly the matches recorded so far. -/
theorem searchLinesFrom_break (rx : String → Option (String × String)) (l : String)
    (rest : List String) (hskip : containsSkipTags l = true) :
    ∀ (pre : List String) (lineno : Nat), lineno + pre.length ≤ 3 →
      (∀ x ∈ pre, containsSkipTags x = false) →
      searchLinesFrom rx lineno (pre ++ l :: rest) = searchLinesAllFrom rx lineno pre := by
  intro pre
  induction pre with
  | nil =>
    intro lineno hlen _
    simp only [List.length_nil, Nat.add_zero] at hlen
    rw [List.nil_append, searchLinesFrom, if_pos ⟨hlen, hskip⟩]
    rfl
  | cons x pre ih =>
    intro lineno hlen hpre
    have hx : containsSkipTags x = false := hpre x (List.mem_cons_self _ _)
    have hcond : ¬(lineno ≤ 3 ∧ containsSkipTags x = true) := by simp [hx]
    have hlen' : lineno + 1 + pre.length ≤ 3 := by
      simp only [List.length_cons] at hlen
      omega
    have hpre' : ∀ y ∈ pre, containsSkipTags y = false :=
      fun y hy => hpre y (List.mem_cons_of_mem _ hy)
    rw [List.cons_append, searchLinesFrom, if_neg hcond]
    cases hrx : rx x with
    | some p =>
      rw [searchLinesAllFrom]
      cases p with
      | mk tag text => rw [hrx, ih (lineno + 1) hlen' hpre']
    | none =>
      rw [searchLinesAllFrom, hrx, ih (lineno + 1) hlen' hpre']

/-- Claim C10: the skip directive wins over a tag match on the same line, and only cuts
off from that line on: for a directive line at 0-based index `|pre| ≤ 3`, the scan
returns exactly the matches of the lines before it — whatever `rx` says about the
directive line — so tagged comments strictly before the directive are still returned
while the directive line and everything after contribute nothing. -/
theorem C10_skip_checked_before_record (rx : String → Option (String × String))
    (pre : List String) (l : String) (rest : List String)
    (hlen : pre.length ≤ 3) (hpre : ∀ x ∈ pre, containsSkipTags x = false)
    (hskip : containsSkipTags l = true) :
    search_lines rx (pre ++ l :: rest) = searchLinesAllFrom rx 0 pre :=
  searchLinesFrom_break rx l rest hskip pre 0 (by omega) hpre

/-- Witness for C10: line 2 holds both a matching tag and the directive; the match on
line 1 is returned, the directive line's own match and the line-3 match are not. -/
theorem C10_skip_checked_before_record_witness :
    search_lines rxTodo
        ["# TODO: fix this", "# TODO: gone :skip_tags:", "# TODO: fix this"]
      = [⟨1, "TODO", "fix this"⟩] := by
  have h := C10_skip_checked_before_record rxTodo ["# TODO: fix this"]
    "# TODO: gone :skip_tags:" ["# TODO: fix this"] (by decide) (by decide) (by decide)
  rw [show (["# TODO: fix this"] ++ ["# TODO: gone :skip_tags:", "# TODO: fix this"])
      = ["# TODO: fix this", "# TODO: gone :skip_tags:", "# TODO: fix this"] from rfl] at h
  rw [h]
  decide

end Calcipy
